import Mathlib

/-!
Verification of the `openfloorcontrol/ofc` floor-coordination core.

The definitions below are a shallow embedding of the Go sources:
  * the turn-taking controller (`floor` package: `Controller`, `nextRecipient`,
    `extractMentions`, the event handlers),
  * the termination rule of the two runners (`LLMRunner.Run` / `ACPRunner.Run`),
  * the tool-call dispatcher of the native runner (`dispatchToolCall`,
    `parseJSONObjects`),
  * the in-memory task board (`furniture.TaskBoard`),
  * the blueprint default application (`blueprint.Load`),
  * the ACP session-start request (`acp.AgentSession.StartSession`).

Go slices are Lean lists, Go `map[string]bool` sets are lists with
membership insertion, Go `float64` fields that only ever hold exact small
decimals (the agent temperature, JSON numbers) are rationals, and fallible
Go functions return `Except String`.  Recursions that Go expresses with
unbounded loops are given explicit fuel so that every definition evaluates
by kernel reduction.
-/

namespace OFC

/-- One tool call and its result, `floor.ToolInteraction` (events.go). -/
structure ToolInteraction where
  command : String
  output : String
deriving Repr, DecidableEq

/-- A floor-level message, `floor.FloorMessage` (events.go). -/
structure FloorMessage where
  fromID : String
  content : String
  toolInteractions : List ToolInteraction := []
deriving Repr, DecidableEq

/-- One level of the delegation chain, `floor.Frame` (events.go). -/
structure Frame where
  caller : String
  callee : String
deriving Repr, DecidableEq

/-- Blueprint-level agent configuration, `blueprint.Agent` (blueprint.go).
`Type` is rendered as `typ` (a Lean keyword clash); the Go `float64`
temperature is a rational. -/
structure Agent where
  id : String
  name : String := ""
  typ : String := ""
  model : String := ""
  endpoint : String := ""
  command : String := ""
  args : List String := []
  env : List (String × String) := []
  prompt : String := ""
  activation : String := ""
  canUseTools : Bool := false
  temperature : Rat := 0
  toolContext : String := ""
  furniture : List String := []
deriving Repr, DecidableEq

/-- `blueprint.Workstation` (blueprint.go). -/
structure Workstation where
  typ : String := ""
  name : String := ""
  image : String := ""
  dockerfile : String := ""
  mount : String := ""
deriving Repr, DecidableEq

/-- `blueprint.Defaults` (blueprint.go). -/
structure Defaults where
  endpoint : String := ""
  model : String := ""
deriving Repr, DecidableEq

/-- `blueprint.FurnitureDef` (blueprint.go). -/
structure FurnitureDef where
  name : String := ""
  typ : String := ""
  command : List String := []
  config : List (String × String) := []
deriving Repr, DecidableEq

/-- `blueprint.Blueprint` (blueprint.go). -/
structure Blueprint where
  name : String := ""
  description : String := ""
  defaults : Defaults := {}
  agents : List Agent := []
  workstations : List Workstation := []
  furniture : List FurnitureDef := []
deriving Repr, DecidableEq

/-- The floor event union (events.go).  Go expresses it as a sealed
interface; inbound and outbound and stream events are constructors here.
`AgentError.Partial` is rendered `preErrorContent` (content produced before
the error), and the Go `error` value is its message string. -/
inductive Event where
  | userMessage (content : String)
  | agentDone (agentID : String) (content : String) (toolInteractions : List ToolInteraction)
  | agentPassed (agentID : String)
  | agentError (agentID : String) (err : String) (preErrorContent : String)
  | userCommand (command : String)
  | promptAgent (agentID : String)
  | waitingForUser
  | conversationCleared
  | floorStopped
  | systemInfo (text : String)
  | tokenStreamed (agentID : String) (token : String)
  | toolCallStarted (agentID : String) (title : String)
  | toolCallResult (agentID : String) (title : String) (output : String)
  | agentThinking (agentID : String)
  | agentLabel (agentID : String)
deriving Repr, DecidableEq

/-- Controller state (mcpwrap_test.go, `floor.Controller`).  The Go
`passedAgents map[string]bool` is a membership list; the injected debug
logger is omitted (it produces no observable state). -/
structure Controller where
  blueprint : Blueprint
  messages : List FloorMessage
  callStack : List Frame
  passedAgents : List String
deriving Repr, DecidableEq

/-- `floor.NewController`. -/
def newController (bp : Blueprint) : Controller :=
  { blueprint := bp, messages := [], callStack := [], passedAgents := [] }

/-- Go regexp `\w` on a character (RE2 ASCII word class). -/
def isWordChar (c : Char) : Bool :=
  c.isAlphanum || c = '_'

/-- Scanner for the regex `@(\w+)\?` used by `extractMentions`:
at an `@`, a maximal nonempty word run must be followed by `?`; matches are
non-overlapping left to right; a failed match resumes one position later.
Fuel is the input length, enough for the whole scan. -/
def extractMentionsAux : Nat → List Char → List String
  | 0, _ => []
  | _, [] => []
  | fuel + 1, c :: rest =>
    if c = '@' then
      let run := rest.takeWhile isWordChar
      let rest2 := rest.dropWhile isWordChar
      match run, rest2 with
      | _ :: _, q :: tail =>
        if q = '?' then ("@" ++ String.mk run) :: extractMentionsAux fuel tail
        else extractMentionsAux fuel rest
      | _, _ => extractMentionsAux fuel rest
    else extractMentionsAux fuel rest

/-- `floor.extractMentions` (mcpwrap_test.go): all `@name?` tokens, with
the `@` prepended and the `?` dropped. -/
def extractMentions (content : String) : List String :=
  extractMentionsAux (content.data.length + 1) content.data

/-- `floor.Controller.shouldWake` (mcpwrap_test.go). -/
def shouldWake (agent : Agent) (lastMsg : FloorMessage) : Bool :=
  if lastMsg.fromID = agent.id then false
  else if agent.activation = "always" then true
  else false

/-- `floor.Controller.getAgent` (mcpwrap_test.go): first blueprint agent
with the given id. -/
def getAgent (c : Controller) (id : String) : Option Agent :=
  c.blueprint.agents.find? (fun a => a.id = id)

/-- Rule 1 of `nextRecipient`: first non-excluded blueprint agent that is
mentioned in the last message and is not its sender. -/
def findMentionedAgent (agents : List Agent) (excluded : List String)
    (mentions : List String) (fromID : String) : Option Agent :=
  agents.find? (fun a =>
    !(excluded.contains a.id) && mentions.any (fun m => m == a.id && m != fromID))

/-- Rule 3 of `nextRecipient`: first non-excluded agent whose
`shouldWake` is true. -/
def findWakeAgent (agents : List Agent) (excluded : List String)
    (lastMsg : FloorMessage) : Option Agent :=
  agents.find? (fun a => !(excluded.contains a.id) && shouldWake a lastMsg)

/-- `floor.Controller.nextRecipient` (mcpwrap_test.go).  The Go method
mutates only `c.CallStack`; the embedding returns the updated stack
together with the chosen agent (`none` = back to the user).  The stack is
kept Go-style: push appends at the end, pop drops the last frame. -/
def nextRecipient (c : Controller) (excluded : List String) :
    List Frame × Option Agent :=
  match c.messages.getLast? with
  | none => (c.callStack, none)
  | some lastMsg =>
    let mentions := extractMentions lastMsg.content
    -- 0. a non-user message that mentions @user pauses for the user
    if lastMsg.fromID != "@user" && mentions.contains "@user" then
      (c.callStack, none)
    else
      -- 1. explicit mentions push a frame and wake the mentioned agent
      match findMentionedAgent c.blueprint.agents excluded mentions lastMsg.fromID with
      | some a => (c.callStack ++ [{ caller := lastMsg.fromID, callee := a.id }], some a)
      | none =>
        -- 2. no mentions: pop the stack and return to the caller
        match c.callStack.getLast? with
        | some frame =>
          let stack := c.callStack.dropLast
          if frame.caller = "@user" then (stack, none)
          else
            match getAgent c frame.caller with
            | some caller =>
              if !(excluded.contains caller.id) then (stack, some caller)
              else (stack, findWakeAgent c.blueprint.agents excluded lastMsg)
            | none => (stack, findWakeAgent c.blueprint.agents excluded lastMsg)
        -- 3./4. poll shouldWake, else back to user
        | none => (c.callStack, findWakeAgent c.blueprint.agents excluded lastMsg)

/-- `floor.Controller.advanceTurn` (mcpwrap_test.go). -/
def advanceTurn (c : Controller) : Controller × List Event :=
  let r := nextRecipient c c.passedAgents
  let c2 := { c with callStack := r.1 }
  match r.2 with
  | none => (c2, [Event.waitingForUser])
  | some a => (c2, [Event.promptAgent a.id])

/-- `floor.Controller.handleUserMessage` (mcpwrap_test.go). -/
def handleUserMessage (c : Controller) (content : String) : Controller × List Event :=
  advanceTurn { c with
    messages := c.messages ++ [{ fromID := "@user", content := content }],
    callStack := [],
    passedAgents := [] }

/-- `floor.Controller.handleAgentDone` (mcpwrap_test.go). -/
def handleAgentDone (c : Controller) (agentID content : String)
    (tis : List ToolInteraction) : Controller × List Event :=
  advanceTurn { c with
    messages := c.messages ++
      [{ fromID := agentID, content := content, toolInteractions := tis }],
    passedAgents := [] }

/-- `floor.Controller.handleAgentPassed` (mcpwrap_test.go): pop the top
frame when its callee is the passing agent, then record the pass. -/
def handleAgentPassed (c : Controller) (agentID : String) : Controller × List Event :=
  let stack :=
    match c.callStack.getLast? with
    | some f => if f.callee = agentID then c.callStack.dropLast else c.callStack
    | none => c.callStack
  advanceTurn { c with
    callStack := stack,
    passedAgents :=
      if c.passedAgents.contains agentID then c.passedAgents
      else c.passedAgents ++ [agentID] }

/-- `floor.Controller.handleAgentError` (mcpwrap_test.go). -/
def handleAgentError (c : Controller) (agentID err : String) : Controller × List Event :=
  (c, [Event.systemInfo ("[ERROR from " ++ agentID ++ ": " ++ err ++ "]"),
       Event.waitingForUser])

/-- `floor.Controller.handleUserCommand` (mcpwrap_test.go). -/
def handleUserCommand (c : Controller) (cmd : String) : Controller × List Event :=
  if cmd = "/quit" then (c, [Event.floorStopped])
  else if cmd = "/clear" then
    ({ c with messages := [], callStack := [], passedAgents := [] },
     [Event.conversationCleared])
  else (c, [Event.systemInfo ("Unknown command: " ++ cmd)])

/-- `floor.Controller.HandleEvent` (mcpwrap_test.go).  Outbound events fed
back in return nil, as in the Go default branch. -/
def handleEvent (c : Controller) (ev : Event) : Controller × List Event :=
  match ev with
  | .userMessage content => handleUserMessage c content
  | .agentDone agentID content tis => handleAgentDone c agentID content tis
  | .agentPassed agentID => handleAgentPassed c agentID
  | .agentError agentID err _ => handleAgentError c agentID err
  | .userCommand cmd => handleUserCommand c cmd
  | _ => (c, [])

/-- Feed a sequence of events through the controller, collecting all
outbound events in order. -/
def runSeq (c : Controller) (evs : List Event) : Controller × List Event :=
  match evs with
  | [] => (c, [])
  | ev :: rest =>
    let r1 := handleEvent c ev
    let r2 := runSeq r1.1 rest
    (r2.1, r1.2 ++ r2.2)

/-- `nextRecipient` mutates only the call stack, so `advanceTurn` leaves
the pass-exclusion set as it found it. -/
theorem advanceTurn_passedAgents (c : Controller) :
    (advanceTurn c).1.passedAgents = c.passedAgents := by
  unfold advanceTurn
  rcases h : nextRecipient c c.passedAgents with ⟨st, a⟩
  cases a <;> rfl

/-- `advanceTurn` also leaves the transcript as it found it. -/
theorem advanceTurn_messages (c : Controller) :
    (advanceTurn c).1.messages = c.messages := by
  unfold advanceTurn
  rcases h : nextRecipient c c.passedAgents with ⟨st, a⟩
  cases a <;> rfl

/-- The two-agent blueprint of the seed scenarios: `@data` wakes always,
`@code` only on mention (controller_test.go `twoAgentBlueprint`). -/
def bpC1 : Blueprint :=
  { name := "test",
    agents := [
      { id := "@data", activation := "always", toolContext := "full" },
      { id := "@code", activation := "mention", toolContext := "full" }] }

/-- C1: with agents `@data` (always) and `@code` (mention), the event
sequence UserMessage "hello"; AgentDone from `@data` mentioning `@code?`;
AgentDone from `@code`; AgentDone from `@data` addressed to `@user`
produces PromptAgent `@data` (empty stack and pass set), PromptAgent
`@code` (stack = one `@data`→`@code` frame), PromptAgent `@data` (stack
popped back to empty), and finally WaitingForUser. -/
theorem c1_seed_scenario :
    (let s0 := newController bpC1
     let r1 := handleEvent s0 (.userMessage "hello")
     let r2 := handleEvent r1.1 (.agentDone "@data" "ask @code? about this" [])
     let r3 := handleEvent r2.1 (.agentDone "@code" "here it is" [])
     let r4 := handleEvent r3.1 (.agentDone "@data" "final answer for @user" [])
     r1.2 = [.promptAgent "@data"] ∧ r1.1.callStack = [] ∧ r1.1.passedAgents = [] ∧
     r2.2 = [.promptAgent "@code"] ∧
       r2.1.callStack = [{ caller := "@data", callee := "@code" }] ∧
       r2.1.passedAgents = [] ∧
     r3.2 = [.promptAgent "@data"] ∧ r3.1.callStack = [] ∧
     r4.2 = [.waitingForUser]) := by
  decide

/-- C3: the pass-exclusion set is empty immediately after any UserMessage
or AgentDone event is processed, for every controller state. -/
theorem c3_pass_set_cleared (c : Controller) (content agentID mcontent : String)
    (tis : List ToolInteraction) :
    (handleEvent c (.userMessage content)).1.passedAgents = [] ∧
    (handleEvent c (.agentDone agentID mcontent tis)).1.passedAgents = [] := by
  constructor <;>
    simp [handleEvent, handleUserMessage, handleAgentDone, advanceTurn_passedAgents]

/-- C4: processing `/clear` and then any event sequence is identical (same
controller state, same outbound events, hence the same transcript) to
processing the sequence on a fresh controller over the same blueprint. -/
theorem c4_clear_equals_fresh (c : Controller) (evs : List Event) :
    runSeq (handleEvent c (.userCommand "/clear")).1 evs =
      runSeq (newController c.blueprint) evs := by
  have h : (handleEvent c (.userCommand "/clear")).1 = newController c.blueprint := rfl
  rw [h]

/-- C5: AgentError emits exactly a SystemInfo followed by WaitingForUser
and leaves the whole controller state — in particular the transcript —
unchanged; the partial output carried by the event is not appended. -/
theorem c5_agent_error (c : Controller) (agentID err pre : String) :
    handleEvent c (.agentError agentID err pre) =
      (c, [Event.systemInfo ("[ERROR from " ++ agentID ++ ": " ++ err ++ "]"),
           Event.waitingForUser]) := rfl

/-! ### Runner termination rule (runner.go) -/

/-- Substring scan behind Go `strings.Contains`: the needle is a prefix of
some suffix of the haystack. -/
def containsAux : List Char → List Char → Bool
  | [], sub => sub.isEmpty
  | c :: rest, sub => sub.isPrefixOf (c :: rest) || containsAux rest sub

/-- Go `strings.Contains(s, sub)`. -/
def goContains (s sub : String) : Bool :=
  containsAux s.data sub.data

/-- Go `strings.ToLower`, restricted to its ASCII action (the only part
that can affect detection of the ASCII token `[pass]`). -/
def goToLower (s : String) : String :=
  String.mk (s.data.map Char.toLower)

theorem containsAux_iff (l sub : List Char) :
    containsAux l sub = true ↔ sub <:+: l := by
  induction l with
  | nil => simp [containsAux, List.isEmpty_iff]
  | cons c rest ih =>
    simp [containsAux, ih, List.infix_cons_iff, List.isPrefixOf_iff_prefix,
      or_comm]

/-- End of `LLMRunner.Run` (runner.go): the `[PASS]` check over the
accumulated content, then `AgentPassed` or `AgentDone`. -/
def llmRunTerminal (agentID content : String) (tis : List ToolInteraction) : Event :=
  if goContains (goToLower content) "[pass]" then Event.agentPassed agentID
  else Event.agentDone agentID content tis

/-- End of `ACPRunner.Run` (runner.go): same `[PASS]` check over the
accumulated response text. -/
def acpRunTerminal (agentID content : String) (tis : List ToolInteraction) : Event :=
  if goContains (goToLower content) "[pass]" then Event.agentPassed agentID
  else Event.agentDone agentID content tis

/-- C2: a runner turn (native or external) ends in AgentPassed exactly
when the lowercased accumulated content has `[pass]` as a substring — even
embedded in a longer paragraph — and otherwise ends in AgentDone carrying
exactly the accumulated content and recorded tool interactions. -/
theorem c2_pass_substring_rule (agentID content : String) (tis : List ToolInteraction) :
    (llmRunTerminal agentID content tis = Event.agentPassed agentID ↔
      "[pass]".data <:+: (goToLower content).data) ∧
    (¬ "[pass]".data <:+: (goToLower content).data →
      llmRunTerminal agentID content tis = Event.agentDone agentID content tis) ∧
    acpRunTerminal agentID content tis = llmRunTerminal agentID content tis := by
  have h := containsAux_iff (goToLower content).data "[pass]".data
  unfold llmRunTerminal acpRunTerminal goContains
  constructor
  · split <;> simp_all
  constructor
  · intro hn
    split <;> simp_all
  · rfl

/-- Witness for C2 at concrete inputs: a paragraph embedding `[PASS]`
yields a pass; plain content yields AgentDone with the same content. -/
theorem c2_pass_substring_rule_witness :
    llmRunTerminal "@a" "Thinking about it, [PASS] seems right." [] =
      Event.agentPassed "@a" ∧
    llmRunTerminal "@a" "all good" [] = Event.agentDone "@a" "all good" [] :=
  ⟨(c2_pass_substring_rule "@a" "Thinking about it, [PASS] seems right." []).1.mpr
      (by decide),
   (c2_pass_substring_rule "@a" "all good" []).2.1 (by decide)⟩

/-- C9: when a turn ends as a pass, the runner result is the bare
AgentPassed event (no content, no tool-interaction payload in its type),
and the controller handling of AgentPassed appends nothing to the
transcript, so tool calls of the passing turn never reach the transcript. -/
theorem c9_pass_leaves_no_trace (c : Controller) (agentID content : String)
    (tis : List ToolInteraction)
    (h : goContains (goToLower content) "[pass]" = true) :
    llmRunTerminal agentID content tis = Event.agentPassed agentID ∧
    (handleEvent c (llmRunTerminal agentID content tis)).1.messages = c.messages := by
  have h1 : llmRunTerminal agentID content tis = Event.agentPassed agentID := by
    unfold llmRunTerminal
    simp [h]
  refine ⟨h1, ?_⟩
  rw [h1]
  simp [handleEvent, handleAgentPassed, advanceTurn_messages]

/-- Witness for C9 at a concrete pass turn with a recorded tool call. -/
theorem c9_pass_leaves_no_trace_witness :
    llmRunTerminal "@data" "ok then [PASS]" [{ command := "ls", output := "x" }] =
      Event.agentPassed "@data" ∧
    (handleEvent (newController {})
        (llmRunTerminal "@data" "ok then [PASS]"
          [{ command := "ls", output := "x" }])).1.messages =
      (newController {}).messages :=
  c9_pass_leaves_no_trace (newController {}) "@data" "ok then [PASS]"
    [{ command := "ls", output := "x" }] (by decide)

/-! ### JSON-compatible values

Go passes tool arguments as `map[string]interface{}` decoded from JSON.
The embedding uses a JSON value type; objects are association lists built
with map-style overwriting insertion, and JSON numbers (Go `float64` for
the exact small decimals appearing here) are rationals. -/

inductive JValue where
  | null
  | bool (b : Bool)
  | num (q : Rat)
  | str (s : String)
  | arr (elems : List JValue)
  | obj (fields : List (String × JValue))
deriving Inhabited

/-- Fields of a JSON object / entries of a Go `map[string]interface{}`. -/
abbrev JObj := List (String × JValue)

/-- Go map assignment `m[k] = v`: overwrite an existing key, else append. -/
def goInsert (m : JObj) (k : String) (v : JValue) : JObj :=
  if m.any (fun p => p.1 == k) then
    m.map (fun p => if p.1 == k then (k, v) else p)
  else m ++ [(k, v)]

/-! ### Task board (externalmcp_test.go, `furniture.TaskBoard`) -/

/-- `furniture.Task`. The Go `int` id is an integer. -/
structure Task where
  id : Int
  title : String
  description : String
  status : String
  assignee : String
deriving Repr, DecidableEq

/-- `furniture.TaskBoard` state (the lock only serializes access). -/
structure TaskBoard where
  tasks : List Task
  nextID : Int
deriving Repr, DecidableEq

/-- `furniture.NewTaskBoard`. -/
def newTaskBoard : TaskBoard :=
  { tasks := [], nextID := 1 }

/-- The Go return value of `TaskBoard.Call`: either one task record or the
`{tasks, count}` listing map. -/
inductive CallResult where
  | task (t : Task)
  | listing (tasks : List Task) (count : Nat)
deriving Repr, DecidableEq

/-- Go string type assertion `args[key].(string)` with the zero value on a
missing key or a non-string value. -/
def getStr (args : JObj) (key : String) : String :=
  match args.lookup key with
  | some (JValue.str s) => s
  | _ => ""

/-- Go `int(f)` on a float64: truncation toward zero. -/
def truncRat (q : Rat) : Int :=
  if 0 ≤ q then q.floor else q.ceil

/-- `furniture.intArg` (externalmcp_test.go): JSON-decoded numbers arrive
as Go float64, truncated to int; anything else is an error. -/
def intArg (args : JObj) (key : String) : Except String Int :=
  match args.lookup key with
  | none => Except.error (key ++ " is required")
  | some (JValue.num n) => Except.ok (truncRat n)
  | some _ => Except.error (key ++ " must be an integer")

/-- Decimal digit character (the digits emitted by Go `%d`). -/
def decChar : Nat → Char
  | 0 => '0' | 1 => '1' | 2 => '2' | 3 => '3' | 4 => '4'
  | 5 => '5' | 6 => '6' | 7 => '7' | 8 => '8' | 9 => '9'
  | _ => '*'

/-- Decimal digit run of a natural number, most significant first; fuel is
the number itself, always enough digits. -/
def decDigitsF : Nat → Nat → List Char
  | 0, _ => []
  | fuel + 1, n =>
    if n < 10 then [decChar n]
    else decDigitsF fuel (n / 10) ++ [decChar (n % 10)]

/-- Go `fmt` `%d` rendering of a natural number. -/
def goDecRepr (n : Nat) : String :=
  String.mk (decDigitsF (n + 1) n)

/-- Go `%d` rendering of an int. -/
def goIntRepr (i : Int) : String :=
  if i < 0 then "-" ++ goDecRepr i.natAbs else goDecRepr i.natAbs

/-- `TaskBoard.listTasks`. -/
def listTasks (tb : TaskBoard) (args : JObj) : Except String CallResult :=
  let statusFilter := getStr args "status"
  let result := tb.tasks.filter (fun t => statusFilter == "" || t.status == statusFilter)
  Except.ok (CallResult.listing result result.length)

/-- The record built by `TaskBoard.addTask`: current counter as id, the
title and optional description from the arguments, status `todo`. -/
def mkNewTask (tb : TaskBoard) (args : JObj) : Task :=
  { id := tb.nextID, title := getStr args "title",
    description := getStr args "description", status := "todo", assignee := "" }

/-- `TaskBoard.addTask`. -/
def addTask (tb : TaskBoard) (args : JObj) : TaskBoard × Except String CallResult :=
  if getStr args "title" = "" then (tb, Except.error "title is required")
  else
    ({ tb with nextID := tb.nextID + 1, tasks := tb.tasks ++ [mkNewTask tb args] },
     Except.ok (CallResult.task (mkNewTask tb args)))

/-- The conditional field updates of `TaskBoard.updateTask`: each present
string argument overwrites the corresponding field. -/
def updateFields (args : JObj) (t : Task) : Task :=
  let t := match args.lookup "status" with
    | some (JValue.str s) => { t with status := s }
    | _ => t
  let t := match args.lookup "assignee" with
    | some (JValue.str s) => { t with assignee := s }
    | _ => t
  let t := match args.lookup "title" with
    | some (JValue.str s) => { t with title := s }
    | _ => t
  match args.lookup "description" with
  | some (JValue.str s) => { t with description := s }
  | _ => t

/-- In-place update of the first task with the given id, returning the
updated list and task. -/
def updateTaskList (args : JObj) (id : Int) : List Task → Option (List Task × Task)
  | [] => none
  | t :: rest =>
    if t.id = id then
      let t2 := updateFields args t
      some (t2 :: rest, t2)
    else
      match updateTaskList args id rest with
      | some (l, t2) => some (t :: l, t2)
      | none => none

/-- `TaskBoard.updateTask`. -/
def updateTask (tb : TaskBoard) (args : JObj) : TaskBoard × Except String CallResult :=
  match intArg args "id" with
  | Except.error e => (tb, Except.error e)
  | Except.ok id =>
    match updateTaskList args id tb.tasks with
    | some (l, t2) => ({ tb with tasks := l }, Except.ok (CallResult.task t2))
    | none => (tb, Except.error ("task " ++ goIntRepr id ++ " not found"))

/-- `TaskBoard.getTask`. -/
def getTask (tb : TaskBoard) (args : JObj) : Except String CallResult :=
  match intArg args "id" with
  | Except.error e => Except.error e
  | Except.ok id =>
    match tb.tasks.find? (fun t => t.id == id) with
    | some t => Except.ok (CallResult.task t)
    | none => Except.error ("task " ++ goIntRepr id ++ " not found")

/-- `TaskBoard.Call` (externalmcp_test.go): tool dispatch.  The Go
methods mutate the receiver; the embedding returns the updated board. -/
def taskBoardCall (tb : TaskBoard) (toolName : String) (args : JObj) :
    TaskBoard × Except String CallResult :=
  match toolName with
  | "list_tasks" => (tb, listTasks tb args)
  | "add_task" => addTask tb args
  | "update_task" => updateTask tb args
  | "get_task" => (tb, getTask tb args)
  | _ =>
    (tb, Except.error ("furniture \"tasks\" has no tool \"" ++ toolName ++ "\""))

/-! ### Blueprint loading (blueprint.go `Load`) -/

/-- Default for an empty endpoint (blueprint.go `Load`). -/
def defEndpoint (d : Defaults) (a : Agent) : Agent :=
  if a.endpoint = "" then { a with endpoint := d.endpoint } else a

/-- Default for an empty model (blueprint.go `Load`). -/
def defModel (d : Defaults) (a : Agent) : Agent :=
  if a.model = "" then { a with model := d.model } else a

/-- Default for a zero temperature (blueprint.go `Load`). -/
def defTemperature (a : Agent) : Agent :=
  if a.temperature = 0 then { a with temperature := (7 : Rat) / 10 } else a

/-- Default for an empty activation (blueprint.go `Load`). -/
def defActivation (a : Agent) : Agent :=
  if a.activation = "" then { a with activation := "mention" } else a

/-- Default for an empty tool context (blueprint.go `Load`). -/
def defToolContext (a : Agent) : Agent :=
  if a.toolContext = "" then { a with toolContext := "full" } else a

/-- Default for an empty agent type (blueprint.go `Load`). -/
def defTyp (a : Agent) : Agent :=
  if a.typ = "" then { a with typ := "llm" } else a

/-- The per-agent default application inside `blueprint.Load`
(blueprint.go lines 74–93): the six zero-value checks in source order.
The YAML zero values (empty string, zero temperature) are replaced by the
documented defaults. -/
def applyAgentDefaults (d : Defaults) (a : Agent) : Agent :=
  defTyp (defToolContext (defActivation (defTemperature (defModel d (defEndpoint d a)))))

/-- The pure tail of `blueprint.Load`: defaults applied to every agent of
the decoded blueprint (file reading and YAML decoding are I/O and are not
part of the embedding; a `temperature: 0` line decodes to the float64 zero
value, indistinguishable from an absent field). -/
def applyDefaults (bp : Blueprint) : Blueprint :=
  { bp with agents := bp.agents.map (applyAgentDefaults bp.defaults) }

/-! ### ACP session start (session.go `AgentSession.StartSession`) -/

/-- Tool-protocol (MCP) server descriptor of the ACP SDK.  Modelled from
the spec: the `acpsdk.McpServer` type is not part of the sources under
verification; FURNITURE.md describes the SSE and streamable-HTTP
descriptor variants. -/
inductive McpServer where
  | sse (name url : String)
  | http (name url : String)
deriving Repr, DecidableEq

/-- `acpsdk.NewSessionRequest` as constructed by `StartSession`. -/
structure NewSessionRequest where
  cwd : String
  mcpServers : List McpServer
deriving Repr, DecidableEq

/-- `acp.AgentSession.StartSession` (session.go lines 86–98): the request
it sends.  The method receives only the working directory and always sends
an empty MCP-server list. -/
def startSessionRequest (cwd : String) : NewSessionRequest :=
  { cwd := cwd, mcpServers := [] }

theorem defEndpoint_temperature (d : Defaults) (a : Agent) :
    (defEndpoint d a).temperature = a.temperature := by
  unfold defEndpoint; split <;> rfl

theorem defModel_temperature (d : Defaults) (a : Agent) :
    (defModel d a).temperature = a.temperature := by
  unfold defModel; split <;> rfl

theorem defActivation_temperature (a : Agent) :
    (defActivation a).temperature = a.temperature := by
  unfold defActivation; split <;> rfl

theorem defToolContext_temperature (a : Agent) :
    (defToolContext a).temperature = a.temperature := by
  unfold defToolContext; split <;> rfl

theorem defTyp_temperature (a : Agent) :
    (defTyp a).temperature = a.temperature := by
  unfold defTyp; split <;> rfl

theorem defTemperature_temperature (a : Agent) :
    (defTemperature a).temperature =
      if a.temperature = 0 then (7 : Rat) / 10 else a.temperature := by
  unfold defTemperature; split <;> simp_all

/-- The temperature field after default application: zero becomes 0.7,
anything else is kept. -/
theorem applyAgentDefaults_temperature (d : Defaults) (a : Agent) :
    (applyAgentDefaults d a).temperature =
      if a.temperature = 0 then (7 : Rat) / 10 else a.temperature := by
  unfold applyAgentDefaults
  rw [defTyp_temperature, defToolContext_temperature, defActivation_temperature,
    defTemperature_temperature, defModel_temperature, defEndpoint_temperature]

/-- C10: an agent whose decoded temperature is 0 — in particular one whose
blueprint file sets `temperature: 0` explicitly — comes out of default
application with temperature 0.7, and no agent of a loaded blueprint ever
has temperature 0. -/
theorem c10_zero_temperature (bp : Blueprint) (a : Agent) :
    (a.temperature = 0 →
      (applyAgentDefaults bp.defaults a).temperature = (7 : Rat) / 10) ∧
    (∀ b ∈ (applyDefaults bp).agents, b.temperature ≠ 0) := by
  constructor
  · intro h
    rw [applyAgentDefaults_temperature, if_pos h]
  · intro b hb
    obtain ⟨a0, _, ha0⟩ := List.mem_map.mp hb
    rw [← ha0, applyAgentDefaults_temperature]
    split
    · norm_num
    · assumption

/-- Witness for C10: a concrete agent with explicit zero temperature loads
with temperature 0.7. -/
theorem c10_zero_temperature_witness :
    (applyAgentDefaults ({} : Blueprint).defaults
        { id := "@m", temperature := 0 }).temperature = (7 : Rat) / 10 :=
  (c10_zero_temperature {} { id := "@m", temperature := 0 }).1 rfl

/-- ACP agent with one accessible furniture, the failing input for the
session-start claim. -/
def agentC8 : Agent :=
  { id := "@coder", typ := "acp", command := "claude-code-acp",
    furniture := ["tasks"] }

/-- C8 (code behavior at the failing input): `StartSession` builds the
session/new request from the working directory alone and always sends an
empty tool-protocol server list — even for an agent with one accessible
furniture, where the documented transport selection requires one
descriptor. -/
theorem c8_session_request_empty :
    (startSessionRequest "/work").cwd = "/work" ∧
    (startSessionRequest "/work").mcpServers.length = 0 ∧
    agentC8.furniture.length = 1 :=
  ⟨rfl, rfl, rfl⟩

/-- C7: the seed task-board scenario — two adds get ids 1 and 2 with
status `todo`, the update of task 1 changes status and assignee, the
filtered listing returns exactly task 2 — and in general a successful
`add_task` hands out the current counter value as id, with status `todo`,
and increments the counter. -/
theorem c7_task_board :
    (let r1 := taskBoardCall newTaskBoard "add_task" [("title", JValue.str "Design API")]
     let r2 := taskBoardCall r1.1 "add_task" [("title", JValue.str "Write tests")]
     let r3 := taskBoardCall r2.1 "update_task"
       [("id", JValue.num 1), ("status", JValue.str "in_progress"),
        ("assignee", JValue.str "@coder")]
     let r4 := taskBoardCall r3.1 "list_tasks" [("status", JValue.str "todo")]
     r1.2 = Except.ok (CallResult.task ⟨1, "Design API", "", "todo", ""⟩) ∧
     r2.2 = Except.ok (CallResult.task ⟨2, "Write tests", "", "todo", ""⟩) ∧
     r3.2 = Except.ok (CallResult.task ⟨1, "Design API", "", "in_progress", "@coder"⟩) ∧
     r4.2 = Except.ok (CallResult.listing [⟨2, "Write tests", "", "todo", ""⟩] 1)) ∧
    newTaskBoard.nextID = 1 ∧
    (∀ (tb tb2 : TaskBoard) (args : JObj) (t : Task),
      addTask tb args = (tb2, Except.ok (CallResult.task t)) →
      t.id = tb.nextID ∧ t.status = "todo" ∧ tb2.nextID = tb.nextID + 1) := by
  refine ⟨⟨rfl, rfl, rfl, rfl⟩, rfl, ?_⟩
  intro tb tb2 args t h
  unfold addTask at h
  split at h
  · simp at h
  · simp only [Prod.mk.injEq, Except.ok.injEq, CallResult.task.injEq] at h
    obtain ⟨h1, h2⟩ := h
    subst h1
    subst h2
    exact ⟨rfl, rfl, rfl⟩

/-- Witness for C7 at a concrete successful `add_task`. -/
theorem c7_task_board_witness :
    (⟨1, "Roadmap", "", "todo", ""⟩ : Task).id = newTaskBoard.nextID ∧
    (⟨1, "Roadmap", "", "todo", ""⟩ : Task).status = "todo" ∧
    (⟨[⟨1, "Roadmap", "", "todo", ""⟩], 2⟩ : TaskBoard).nextID =
      newTaskBoard.nextID + 1 :=
  c7_task_board.2.2 newTaskBoard ⟨[⟨1, "Roadmap", "", "todo", ""⟩], 2⟩
    [("title", JValue.str "Roadmap")] ⟨1, "Roadmap", "", "todo", ""⟩ rfl

/-! ### JSON decoding (runner.go `parseJSONObjects`, Go `encoding/json`)

A fueled JSON parser; fuel bounds nesting depth and is always supplied
large enough (twice the remaining input length), so it never runs out on
any input. -/

/-- The brace characters, named to keep string literals brace-free. -/
def lbrace : Char := Char.ofNat 123

def rbrace : Char := Char.ofNat 125

def isJsonWs (c : Char) : Bool :=
  c = ' ' || c = '\t' || c = '\n' || c = Char.ofNat 13

def skipWs (l : List Char) : List Char :=
  l.dropWhile isJsonWs

/-- Hexadecimal digit value. -/
def hexVal (c : Char) : Option Nat :=
  if c.isDigit then some (c.toNat - 48)
  else if 'a' ≤ c && c ≤ 'f' then some (c.toNat - 87)
  else if 'A' ≤ c && c ≤ 'F' then some (c.toNat - 55)
  else none

/-- Single-character JSON escapes. -/
def escChar (e : Char) : Option Char :=
  if e = '"' then some '"'
  else if e = '\\' then some '\\'
  else if e = '/' then some '/'
  else if e = 'b' then some (Char.ofNat 8)
  else if e = 'f' then some (Char.ofNat 12)
  else if e = 'n' then some '\n'
  else if e = 'r' then some (Char.ofNat 13)
  else if e = 't' then some '\t'
  else none

/-- Body of a JSON string literal after the opening quote; returns the
decoded characters and the input after the closing quote.  Fuel is the
input length (every step consumes a character). -/
def parseStringBodyF : Nat → List Char → Except String (List Char × List Char)
  | 0, _ => Except.error "string fuel exhausted"
  | _, [] => Except.error "unterminated string"
  | fuel + 1, c :: rest =>
    if c = '"' then Except.ok ([], rest)
    else if c = '\\' then
      match rest with
      | [] => Except.error "unterminated escape"
      | e :: rest2 =>
        if e = 'u' then
          match rest2 with
          | h1 :: h2 :: h3 :: h4 :: rest3 =>
            match hexVal h1, hexVal h2, hexVal h3, hexVal h4 with
            | some a, some b, some x, some y =>
              match parseStringBodyF fuel rest3 with
              | Except.ok (s, r) =>
                Except.ok (Char.ofNat (((a * 16 + b) * 16 + x) * 16 + y) :: s, r)
              | Except.error m => Except.error m
            | _, _, _, _ => Except.error "invalid unicode escape"
          | _ => Except.error "invalid unicode escape"
        else
          match escChar e with
          | some ec =>
            match parseStringBodyF fuel rest2 with
            | Except.ok (s, r) => Except.ok (ec :: s, r)
            | Except.error m => Except.error m
          | none => Except.error "invalid escape"
    else
      match parseStringBodyF fuel rest with
      | Except.ok (s, r) => Except.ok (c :: s, r)
      | Except.error m => Except.error m

/-- Value of a run of decimal digits. -/
def digitsVal (ds : List Char) : Nat :=
  ds.foldl (fun acc c => acc * 10 + (c.toNat - 48)) 0

/-- JSON number: optional sign, integer part, optional fraction, optional
exponent, as an exact rational. -/
def parseNumber (l : List Char) : Except String (Rat × List Char) :=
  let signAndRest : Bool × List Char :=
    match l with
    | '-' :: r => (true, r)
    | _ => (false, l)
  let neg := signAndRest.1
  let l1 := signAndRest.2
  let ip := l1.takeWhile Char.isDigit
  let l2 := l1.dropWhile Char.isDigit
  if ip.isEmpty then Except.error "invalid number"
  else
    let intPart : Rat := (digitsVal ip : Nat)
    let fracAndRest : Option (Rat × List Char) :=
      match l2 with
      | '.' :: r =>
        let fd := r.takeWhile Char.isDigit
        if fd.isEmpty then none
        else some ((digitsVal fd : Nat) / ((10 : Rat) ^ fd.length),
                   r.dropWhile Char.isDigit)
      | _ => some (0, l2)
    match fracAndRest with
    | none => Except.error "invalid number"
    | some (frac, l3) =>
      let expAndRest : Option (Int × List Char) :=
        match l3 with
        | e :: r =>
          if e = 'e' || e = 'E' then
            let expSignAndRest : Bool × List Char :=
              match r with
              | '-' :: r2 => (true, r2)
              | '+' :: r2 => (false, r2)
              | _ => (false, r)
            let ed := expSignAndRest.2.takeWhile Char.isDigit
            if ed.isEmpty then none
            else some ((if expSignAndRest.1 then -(digitsVal ed : Int)
                        else (digitsVal ed : Int)),
                       expSignAndRest.2.dropWhile Char.isDigit)
          else some (0, l3)
        | [] => some (0, l3)
      match expAndRest with
      | none => Except.error "invalid number"
      | some (ex, l4) =>
        let mag : Rat := (intPart + frac) * (10 : Rat) ^ ex
        Except.ok ((if neg then -mag else mag), l4)

mutual

/-- One JSON value (Go `encoding/json` grammar); fuel bounds nesting. -/
def parseValueF : Nat → List Char → Except String (JValue × List Char)
  | 0, _ => Except.error "nesting too deep"
  | fuel + 1, l =>
    match skipWs l with
    | [] => Except.error "unexpected end of input"
    | c :: rest =>
      if c = '"' then
        match parseStringBodyF (rest.length + 1) rest with
        | Except.ok (s, r) => Except.ok (JValue.str (String.mk s), r)
        | Except.error m => Except.error m
      else if c = lbrace then parseObjectF fuel rest []
      else if c = '[' then parseArrayF fuel rest []
      else if c = 't' then
        match rest with
        | 'r' :: 'u' :: 'e' :: r => Except.ok (JValue.bool true, r)
        | _ => Except.error "invalid literal"
      else if c = 'f' then
        match rest with
        | 'a' :: 'l' :: 's' :: 'e' :: r => Except.ok (JValue.bool false, r)
        | _ => Except.error "invalid literal"
      else if c = 'n' then
        match rest with
        | 'u' :: 'l' :: 'l' :: r => Except.ok (JValue.null, r)
        | _ => Except.error "invalid literal"
      else
        match parseNumber (c :: rest) with
        | Except.ok (q, r) => Except.ok (JValue.num q, r)
        | Except.error m => Except.error m

/-- Object members after the opening brace or a comma; fields accumulate
with Go map semantics (`goInsert`, duplicate keys overwrite). -/
def parseObjectF : Nat → List Char → JObj → Except String (JValue × List Char)
  | 0, _, _ => Except.error "nesting too deep"
  | fuel + 1, l, acc =>
    match skipWs l with
    | [] => Except.error "unterminated object"
    | c :: rest =>
      if c = rbrace && acc.isEmpty then Except.ok (JValue.obj acc, rest)
      else if c = '"' then
        match parseStringBodyF (rest.length + 1) rest with
        | Except.error m => Except.error m
        | Except.ok (keyChars, r1) =>
          match skipWs r1 with
          | ':' :: r2 =>
            match parseValueF fuel r2 with
            | Except.error m => Except.error m
            | Except.ok (v, r3) =>
              let acc2 := goInsert acc (String.mk keyChars) v
              match skipWs r3 with
              | ',' :: r4 => parseObjectF fuel r4 acc2
              | d :: r4 =>
                if d = rbrace then Except.ok (JValue.obj acc2, r4)
                else Except.error "expected comma or closing brace"
              | [] => Except.error "unterminated object"
          | _ => Except.error "expected colon"
      else Except.error "expected object key"

/-- Array elements after the opening bracket or a comma. -/
def parseArrayF : Nat → List Char → List JValue → Except String (JValue × List Char)
  | 0, _, _ => Except.error "nesting too deep"
  | fuel + 1, l, acc =>
    match skipWs l with
    | [] => Except.error "unterminated array"
    | c :: rest =>
      if c = ']' && acc.isEmpty then Except.ok (JValue.arr acc, rest)
      else
        match parseValueF fuel l with
        | Except.error m => Except.error m
        | Except.ok (v, r1) =>
          let acc2 := acc ++ [v]
          match skipWs r1 with
          | ',' :: r2 => parseArrayF fuel r2 acc2
          | ']' :: r2 => Except.ok (JValue.arr acc2, r2)
          | _ => Except.error "expected comma or closing bracket"

end

/-- The `json.Decoder` loop of `parseJSONObjects` (runner.go lines
236–250): while more input remains, decode one value into a Go map — a
JSON object, or null for the nil map — collecting the decoded objects;
outer fuel is the input length (each value consumes at least one
character). -/
def parseJSONObjectsAux : Nat → List Char → List JObj → Except String (List JObj)
  | 0, _, _ => Except.error "decoder fuel exhausted"
  | fuel + 1, l, acc =>
    let s := skipWs l
    if s.isEmpty then Except.ok acc
    else
      match parseValueF (2 * s.length + 4) s with
      | Except.error m => Except.error m
      | Except.ok (v, r) =>
        match v with
        | JValue.obj fields => parseJSONObjectsAux fuel r (acc ++ [fields])
        | JValue.null => parseJSONObjectsAux fuel r (acc ++ [[]])
        | _ => Except.error "json: cannot unmarshal value into map"

/-- `floor.parseJSONObjects` (runner.go): decode one or more concatenated
JSON objects; an empty input yields one empty object. -/
def parseJSONObjects (s : String) : Except String (List JObj) :=
  match parseJSONObjectsAux (s.data.length + 1) s.data [] with
  | Except.error m => Except.error m
  | Except.ok [] => Except.ok [[]]
  | Except.ok objs => Except.ok objs

/-! ### JSON encoding (Go `json.Marshal`, used for tool outputs and the
re-marshalled per-call arguments).  Display strings only; no claim
inspects them.  Object keys are sorted as Go map marshalling does. -/

def hexCharLower : Nat → Char
  | 10 => 'a' | 11 => 'b' | 12 => 'c' | 13 => 'd' | 14 => 'e' | 15 => 'f'
  | n => decChar n

/-- Go JSON string escaping (quotes, backslash, control characters, and
the HTML-significant characters). -/
def jsonEscapeChar (c : Char) : List Char :=
  if c = '"' then ['\\', '"']
  else if c = '\\' then ['\\', '\\']
  else if c = '\n' then ['\\', 'n']
  else if c = Char.ofNat 13 then ['\\', 'r']
  else if c = '\t' then ['\\', 't']
  else if c = '<' || c = '>' || c = '&' || c.toNat < 32 then
    ['\\', 'u', '0', '0', hexCharLower (c.toNat / 16 % 16), hexCharLower (c.toNat % 16)]
  else [c]

def jsonEncodeString (s : String) : String :=
  String.mk ('"' :: (s.data.map jsonEscapeChar).flatten ++ ['"'])

mutual

/-- Structural size of a JSON value, dominating its nesting depth. -/
def jsize : JValue → Nat
  | JValue.null => 1
  | JValue.bool _ => 1
  | JValue.num _ => 1
  | JValue.str _ => 1
  | JValue.arr xs => 1 + jsizeList xs
  | JValue.obj fs => 1 + jsizeFields fs

def jsizeList : List JValue → Nat
  | [] => 0
  | v :: rest => 1 + jsize v + jsizeList rest

def jsizeFields : List (String × JValue) → Nat
  | [] => 0
  | p :: rest => 1 + jsize p.2 + jsizeFields rest

end

/-- Sorted insertion by key, for Go map-key ordering. -/
def insertSorted (p : String × JValue) : JObj → JObj
  | [] => [p]
  | q :: rest => if p.1 ≤ q.1 then p :: q :: rest else q :: insertSorted p rest

def sortFields : JObj → JObj
  | [] => []
  | p :: rest => insertSorted p (sortFields rest)

/-- Fueled JSON encoder; fuel `jsize v` always dominates the depth. -/
def jsonEncodeF : Nat → JValue → String
  | 0, _ => ""
  | fuel + 1, v =>
    match v with
    | JValue.null => "null"
    | JValue.bool true => "true"
    | JValue.bool false => "false"
    | JValue.num q =>
      if q.den = 1 then goIntRepr q.num
      else goIntRepr q.num ++ "/" ++ goDecRepr q.den
    | JValue.str s => jsonEncodeString s
    | JValue.arr xs =>
      "[" ++ String.intercalate "," (xs.map (jsonEncodeF fuel)) ++ "]"
    | JValue.obj fs =>
      String.mk [lbrace] ++
        String.intercalate ","
          ((sortFields fs).map
            (fun p => jsonEncodeString p.1 ++ ":" ++ jsonEncodeF fuel p.2)) ++
        String.mk [rbrace]

def jsonEncode (v : JValue) : String :=
  jsonEncodeF (jsize v) v

/-! ### Native-runner tool dispatch (runner.go `dispatchToolCall`) -/

/-- `llm.ToolCall` (the provider tool-call record). -/
structure GoToolCall where
  id : String
  typ : String
  name : String
  arguments : String
deriving Repr, DecidableEq

/-- `floor.expandedCall` (runner.go). -/
structure ExpandedCall where
  call : GoToolCall
  title : String
  output : String
deriving Repr, DecidableEq

/-- The runner context `dispatchToolCall` reads: the sandbox `Execute`
function (if a sandbox exists) and the accessible furniture, each
abstracted as its synchronous `Call` function. -/
structure RunnerEnv where
  sandbox : Option (String → Except String String)
  furniture : List (String × (String → JObj → Except String JValue))

/-- Split a list at the first occurrence of a separator. -/
def splitOnFirst (sep : List Char) : List Char → Option (List Char × List Char)
  | [] => none
  | c :: rest =>
    if sep.isPrefixOf (c :: rest) then some ([], (c :: rest).drop sep.length)
    else
      match splitOnFirst sep rest with
      | some (pre, post) => some (c :: pre, post)
      | none => none

/-- Go `strings.SplitN(s, sep, 2)` restricted to the two-part outcome:
`some` exactly when the separator occurs. -/
def goSplitN2 (s sep : String) : Option (String × String) :=
  match splitOnFirst sep.data s.data with
  | some (a, b) => some (String.mk a, String.mk b)
  | none => none

/-- One JSON value covering the whole input (Go `json.Unmarshal`). -/
def parseOneValue (s : String) : Except String JValue :=
  match parseValueF (2 * s.data.length + 4) s.data with
  | Except.error m => Except.error m
  | Except.ok (v, r) =>
    if (skipWs r).isEmpty then Except.ok v else Except.error "trailing data"

/-- `json.Unmarshal` of the bash arguments into `struct { Cmd string }`:
on any decoding error the runner falls back to the raw argument string. -/
def unmarshalCmd (s : String) : String :=
  match parseOneValue s with
  | Except.ok (JValue.obj fields) =>
    match fields.lookup "cmd" with
    | some (JValue.str c) => c
    | some JValue.null => ""
    | none => ""
    | some _ => s
  | Except.ok JValue.null => ""
  | _ => s

/-- The per-split call id: the original id for the first object, the
original id with `_i` appended for the i-th (runner.go lines 178–187). -/
def splitCallID (origID : String) (i : Nat) : String :=
  if 0 < i then origID ++ "_" ++ goDecRepr i else origID

/-- The `for i, args := range argsList` loop of the furniture branch: one
furniture invocation, one expanded call, one rewritten tool-call id per
decoded argument object. -/
def expandArgsLoop (call : String → JObj → Except String JValue)
    (toolName title : String) (tc : GoToolCall) :
    Nat → List JObj → List ExpandedCall
  | _, [] => []
  | i, args :: rest =>
    { call :=
        { id := splitCallID tc.id i, typ := tc.typ, name := tc.name,
          arguments := jsonEncode (JValue.obj args) },
      title := title,
      output :=
        match call toolName args with
        | Except.error e => "[ERROR: " ++ e ++ "]"
        | Except.ok v => jsonEncode v } ::
    expandArgsLoop call toolName title tc (i + 1) rest

/-- Furniture branch of `dispatchToolCall` (runner.go lines 139–196):
look up the furniture, split the argument string into JSON objects, and
expand one call per object. -/
def dispatchFurniture (env : RunnerEnv) (agentID : String) (tc : GoToolCall)
    (furnitureName toolName : String) : List Event × List ExpandedCall :=
  match env.furniture.lookup furnitureName with
  | none =>
    ([], [{ call := tc, title := tc.name,
            output := "[ERROR: unknown furniture \"" ++ furnitureName ++ "\"]" }])
  | some f =>
    let title := furnitureName ++ "." ++ toolName
    match parseJSONObjects tc.arguments with
    | Except.error e =>
      ([], [{ call := tc, title := title,
              output := "[ERROR: invalid arguments: " ++ e ++ "]" }])
    | Except.ok argsList =>
      (argsList.map (fun _ => Event.toolCallStarted agentID title),
       expandArgsLoop f toolName title tc 0 argsList)

/-- `floor.LLMRunner.dispatchToolCall` (runner.go lines 135–221).  Stream
events are returned alongside the expanded calls. -/
def dispatchToolCall (env : RunnerEnv) (agentID : String) (tc : GoToolCall) :
    List Event × List ExpandedCall :=
  match goSplitN2 tc.name "__" with
  | some (furnitureName, toolName) =>
    dispatchFurniture env agentID tc furnitureName toolName
  | none =>
    if tc.name = "bash" then
      match env.sandbox with
      | none =>
        ([], [{ call := tc, title := "bash", output := "[ERROR: no sandbox available]" }])
      | some exec =>
        let cmd := unmarshalCmd tc.arguments
        match exec cmd with
        | Except.error e =>
          ([Event.toolCallStarted agentID cmd],
           [{ call := tc, title := cmd, output := "[ERROR: " ++ e ++ "]" }])
        | Except.ok output =>
          ([Event.toolCallStarted agentID cmd],
           [{ call := tc, title := cmd, output := output }])
    else
      ([], [{ call := tc, title := tc.name,
              output := "[ERROR: unknown tool \"" ++ tc.name ++ "\"]" }])

/-- `floor.LLMRunner.expandToolCalls` (runner.go): dispatch each provider
tool call and concatenate the expansions. -/
def expandToolCalls (env : RunnerEnv) (agentID : String)
    (toolCalls : List GoToolCall) : List ExpandedCall :=
  toolCalls.foldl (fun acc tc => acc ++ (dispatchToolCall env agentID tc).2) []

/-! ### Distinctness of the generated per-split call ids -/

/-- Digit value of a character, left inverse of `decChar` below 10. -/
def charDigit (c : Char) : Nat := c.toNat - 48

theorem charDigit_decChar (d : Nat) (h : d < 10) : charDigit (decChar d) = d := by
  interval_cases d <;> rfl

/-- Value of a most-significant-first decimal digit run. -/
def decVal : List Char → Nat
  | [] => 0
  | c :: rest => charDigit c * 10 ^ rest.length + decVal rest

theorem decVal_append_digit (xs : List Char) (c : Char) :
    decVal (xs ++ [c]) = decVal xs * 10 + charDigit c := by
  induction xs with
  | nil => simp [decVal]
  | cons x rest ih =>
    simp only [List.cons_append, decVal, ih, List.append_eq, List.length_append,
      List.length_cons, List.length_nil]
    ring

theorem decVal_decDigitsF (fuel : Nat) : ∀ n : Nat, n < 10 ^ fuel →
    decVal (decDigitsF fuel n) = n := by
  induction fuel with
  | zero =>
    intro n h
    simp only [pow_zero, Nat.lt_one_iff] at h
    subst h
    rfl
  | succ fuel ih =>
    intro n h
    unfold decDigitsF
    split
    next hlt =>
      simp [decVal, charDigit_decChar _ hlt]
    next hge =>
      have hdiv : n / 10 < 10 ^ fuel := by
        rw [Nat.div_lt_iff_lt_mul (by norm_num)]
        calc n < 10 ^ (fuel + 1) := h
        _ = 10 ^ fuel * 10 := by ring
      rw [decVal_append_digit, ih (n / 10) hdiv,
        charDigit_decChar _ (Nat.mod_lt _ (by norm_num))]
      omega

theorem decVal_goDecRepr (n : Nat) : decVal (goDecRepr n).data = n := by
  have hlt : n < 10 ^ (n + 1) := by
    calc n < 2 ^ n := Nat.lt_two_pow n
    _ ≤ 10 ^ n := Nat.pow_le_pow_left (by norm_num) n
    _ ≤ 10 ^ (n + 1) := Nat.pow_le_pow_right (by norm_num) (Nat.le_succ n)
  exact decVal_decDigitsF (n + 1) n hlt

theorem goDecRepr_injective : Function.Injective goDecRepr := by
  intro a b h
  have := congrArg (fun s => decVal s.data) h
  simpa [decVal_goDecRepr] using this

/-- Appending `_<digits>` always changes a string (length argument). -/
theorem append_id_ne (origID : String) (k : Nat) :
    origID ++ "_" ++ goDecRepr k ≠ origID := by
  intro h
  have hlen := congrArg String.length h
  simp only [String.length_append] at hlen
  have h1 : ("_" : String).length = 1 := rfl
  omega

theorem splitCallID_ne_orig (origID : String) (k : Nat) (hk : 0 < k) :
    splitCallID origID k ≠ origID := by
  unfold splitCallID
  rw [if_pos hk]
  exact append_id_ne origID k

theorem splitCallID_injective (origID : String) :
    Function.Injective (splitCallID origID) := by
  intro i j h
  unfold splitCallID at h
  by_cases hi : 0 < i <;> by_cases hj : 0 < j
  · rw [if_pos hi, if_pos hj] at h
    have hdata := congrArg String.data h
    simp only [String.data_append, List.append_assoc] at hdata
    have hcancel := List.append_cancel_left (List.append_cancel_left hdata)
    have : decVal (goDecRepr i).data = decVal (goDecRepr j).data := by rw [hcancel]
    simpa [decVal_goDecRepr] using this
  · rw [if_pos hi, if_neg hj] at h
    exact absurd h (append_id_ne origID i)
  · rw [if_neg hi, if_pos hj] at h
    exact absurd h.symm (append_id_ne origID j)
  · omega

theorem expandArgsLoop_length (call : String → JObj → Except String JValue)
    (toolName title : String) (tc : GoToolCall) :
    ∀ (l : List JObj) (i : Nat),
      (expandArgsLoop call toolName title tc i l).length = l.length := by
  intro l
  induction l with
  | nil => intro i; rfl
  | cons a rest ih =>
    intro i
    simp [expandArgsLoop, ih (i + 1)]

theorem expandArgsLoop_get_id (call : String → JObj → Except String JValue)
    (toolName title : String) (tc : GoToolCall) :
    ∀ (l : List JObj) (i k : Nat)
      (hk : k < (expandArgsLoop call toolName title tc i l).length),
      ((expandArgsLoop call toolName title tc i l).get ⟨k, hk⟩).call.id =
        splitCallID tc.id (i + k) := by
  intro l
  induction l with
  | nil =>
    intro i k hk
    simp [expandArgsLoop] at hk
  | cons a rest ih =>
    intro i k hk
    cases k with
    | zero => rfl
    | succ k =>
      have hk0 : k + 1 < (expandArgsLoop call toolName title tc i (a :: rest)).length := hk
      rw [expandArgsLoop_length] at hk0
      have hk2 : k < (expandArgsLoop call toolName title tc (i + 1) rest).length := by
        rw [expandArgsLoop_length]
        exact Nat.lt_of_succ_lt_succ hk0
      have harith : i + 1 + k = i + (k + 1) := by omega
      have hih := ih (i + 1) k hk2
      rw [harith] at hih
      exact hih

theorem expandArgsLoop_mem_ids (call : String → JObj → Except String JValue)
    (toolName title : String) (tc : GoToolCall) :
    ∀ (l : List JObj) (i : Nat) (x : String),
      x ∈ (expandArgsLoop call toolName title tc i l).map (fun e => e.call.id) →
      ∃ k, i ≤ k ∧ x = splitCallID tc.id k := by
  intro l
  induction l with
  | nil => intro i x hx; simp [expandArgsLoop] at hx
  | cons a rest ih =>
    intro i x hx
    simp only [expandArgsLoop, List.map_cons, List.mem_cons] at hx
    rcases hx with hx | hx
    · exact ⟨i, le_refl i, hx⟩
    · obtain ⟨k, hk1, hk2⟩ := ih (i + 1) x hx
      exact ⟨k, by omega, hk2⟩

theorem expandArgsLoop_ids_nodup (call : String → JObj → Except String JValue)
    (toolName title : String) (tc : GoToolCall) :
    ∀ (l : List JObj) (i : Nat),
      ((expandArgsLoop call toolName title tc i l).map (fun e => e.call.id)).Nodup := by
  intro l
  induction l with
  | nil => intro i; simp [expandArgsLoop]
  | cons a rest ih =>
    intro i
    simp only [expandArgsLoop, List.map_cons, List.nodup_cons]
    refine ⟨?_, ih (i + 1)⟩
    intro hmem
    obtain ⟨k, hk1, hk2⟩ := expandArgsLoop_mem_ids call toolName title tc rest (i + 1) _ hmem
    have := splitCallID_injective tc.id hk2
    omega

/-- C6 (amended): for a provider tool call routed to a known furniture
(`name = furniture__tool`) whose argument string decodes as a sequence of
JSON objects, the dispatcher invokes the tool once per object — one
expanded call (hence one recorded tool interaction) per object — the ids
of the 2nd…Nth expansions differ from the original id, and all expanded
ids are pairwise distinct. -/
theorem c6_expanded_calls (env : RunnerEnv) (agentID : String) (tc : GoToolCall)
    (fname tname : String) (f : String → JObj → Except String JValue)
    (objs : List JObj)
    (h1 : goSplitN2 tc.name "__" = some (fname, tname))
    (h2 : env.furniture.lookup fname = some f)
    (h3 : parseJSONObjects tc.arguments = Except.ok objs) :
    (dispatchToolCall env agentID tc).2.length = objs.length ∧
    ((dispatchToolCall env agentID tc).2.map (fun e => e.call.id)).Nodup ∧
    (∀ k (hk : k < (dispatchToolCall env agentID tc).2.length), 0 < k →
      ((dispatchToolCall env agentID tc).2.get ⟨k, hk⟩).call.id ≠ tc.id) := by
  have e1 : dispatchToolCall env agentID tc =
      dispatchFurniture env agentID tc fname tname := by
    unfold dispatchToolCall
    rw [h1]
  have hd : (dispatchToolCall env agentID tc).2 =
      expandArgsLoop f tname (fname ++ "." ++ tname) tc 0 objs := by
    rw [e1]
    unfold dispatchFurniture
    rw [h2, h3]
  rw [hd]
  refine ⟨expandArgsLoop_length f tname _ tc objs 0,
    expandArgsLoop_ids_nodup f tname _ tc objs 0, ?_⟩
  intro k hk hpos
  rw [expandArgsLoop_get_id f tname _ tc objs 0 k hk]
  simpa using splitCallID_ne_orig tc.id k hpos

/-- Witness for C6 (amended) at a concrete two-object furniture call. -/
theorem c6_expanded_calls_witness :
    (dispatchToolCall
        { sandbox := none,
          furniture := [("tasks", fun _ _ => Except.ok JValue.null)] } "@a"
        { id := "c0", typ := "function", name := "tasks__add_task",
          arguments := "\x7b\"title\":\"a\"\x7d\x7b\"title\":\"b\"\x7d" }).2.length =
      2 ∧
    ((dispatchToolCall
        { sandbox := none,
          furniture := [("tasks", fun _ _ => Except.ok JValue.null)] } "@a"
        { id := "c0", typ := "function", name := "tasks__add_task",
          arguments := "\x7b\"title\":\"a\"\x7d\x7b\"title\":\"b\"\x7d" }).2.map
      (fun e => e.call.id)).Nodup ∧
    (∀ k (hk : k < (dispatchToolCall
        { sandbox := none,
          furniture := [("tasks", fun _ _ => Except.ok JValue.null)] } "@a"
        { id := "c0", typ := "function", name := "tasks__add_task",
          arguments := "\x7b\"title\":\"a\"\x7d\x7b\"title\":\"b\"\x7d" }).2.length),
      0 < k →
      ((dispatchToolCall
        { sandbox := none,
          furniture := [("tasks", fun _ _ => Except.ok JValue.null)] } "@a"
        { id := "c0", typ := "function", name := "tasks__add_task",
          arguments := "\x7b\"title\":\"a\"\x7d\x7b\"title\":\"b\"\x7d" }).2.get
        ⟨k, hk⟩).call.id ≠ "c0") :=
  c6_expanded_calls
    { sandbox := none, furniture := [("tasks", fun _ _ => Except.ok JValue.null)] }
    "@a"
    { id := "c0", typ := "function", name := "tasks__add_task",
      arguments := "\x7b\"title\":\"a\"\x7d\x7b\"title\":\"b\"\x7d" }
    "tasks" "add_task" (fun _ _ => Except.ok JValue.null)
    [[("title", JValue.str "a")], [("title", JValue.str "b")]] rfl rfl rfl

/-- The bash tool call whose argument string concatenates two JSON objects. -/
def bashCallC6 : GoToolCall :=
  { id := "call_0", typ := "function", name := "bash",
    arguments := "\x7b\"cmd\":\"echo a\"\x7d\x7b\"cmd\":\"echo b\"\x7d" }

/-- Runner context of the counterexample: a sandbox and no furniture. -/
def envC6 : RunnerEnv :=
  { sandbox := some (fun c => Except.ok ("ran " ++ c)), furniture := [] }

/-- C6 counterexample to the claim as stated: the argument string of this
bash call is a concatenation of two JSON objects (first conjunct), yet the
dispatcher performs a single invocation — passing the raw concatenated
string as the command — instead of one invocation per object. -/
theorem c6_counterexample :
    parseJSONObjects bashCallC6.arguments =
      Except.ok [[("cmd", JValue.str "echo a")], [("cmd", JValue.str "echo b")]] ∧
    (dispatchToolCall envC6 "@a" bashCallC6).2 =
      [{ call := bashCallC6, title := bashCallC6.arguments,
         output := "ran " ++ bashCallC6.arguments }] ∧
    (dispatchToolCall envC6 "@a" bashCallC6).2.length = 1 :=
  ⟨rfl, rfl, rfl⟩

end OFC
